import Mathlib

/-!  Formal model of the hostname-resolution strategy decision engine in
`src/net/conf.go` (the `conf` structure and its `hostLookupOrder` method),
together with the error-aggregation combinator `Join` from the `errors`
package present in the same source tree.  The Go code is embedded shallowly:
Go strings become Lean `String`s, Go's byte-level string helpers become
char-level functions (all the relevant comparisons involve ASCII suffixes,
where the two views agree), fallible operations become `Option`-valued
parameters, and the process-global inputs read by `hostLookupOrder`
(`getSystemNSS()` and `getHostname()`) become explicit arguments, exactly as
the package's own test harness treats them.  -/

set_option maxRecDepth 10000

/-- Outcome enumeration of the decision engine: cgo/native, files+dns,
dns+files, files only, dns only. -/
inductive hostLookupOrder where
  | hostLookupCgo
  | hostLookupFilesDNS
  | hostLookupDNSFiles
  | hostLookupFiles
  | hostLookupDNS
deriving DecidableEq, Repr

/-- Classification of a file read/parse error, as consumed by the engine via
`os.IsNotExist`.  `notExist` is the class recognized by `os.IsNotExist`;
`permission` and `other` are the remaining classes (the engine itself only
ever distinguishes `notExist` from the rest). -/
inductive fsError where
  | notExist
  | permission
  | other
deriving DecidableEq, Repr

/-- Go's ASCII-only byte lowering from `net/parse.go` `lowerASCII`, at the
character level. -/
def lowerASCII (c : Char) : Char :=
  if 'A' ≤ c ∧ c ≤ 'Z' then Char.ofNat (c.toNat + 32) else c

/-- Model of `net/parse.go` `stringsEqualFold` (ASCII-only `strings.EqualFold`):
equal length and bytewise-equal after ASCII lowering. -/
def stringsEqualFold (s t : String) : Bool :=
  s.data.map lowerASCII == t.data.map lowerASCII

/-- Model of `net/parse.go` `stringsHasSuffix`. -/
def stringsHasSuffix (s suffix : String) : Bool :=
  List.isSuffixOf suffix.data s.data

/-- Model of `net/parse.go` `stringsHasSuffixFold`: the suffix fits and the
trailing slice of that length is fold-equal to it. -/
def stringsHasSuffixFold (s suffix : String) : Bool :=
  decide (suffix.data.length ≤ s.data.length) &&
    stringsEqualFold (String.mk (s.data.drop (s.data.length - suffix.data.length))) suffix

/-- Model of the plain prefix test of `net/parse.go`. -/
def stringsHasPrefixB (s p : String) : Bool :=
  List.isPrefixOf p.data s.data

/-- Model of `bytealg.IndexByteString(s, c) != -1`: s contains the byte c
(an ASCII byte occurs in the UTF-8 encoding exactly when the character does). -/
def containsByteString (s : String) (c : Char) : Bool :=
  s.data.any (fun x => x == c)

/-- Fields of `dnsConfig` (parsed resolv.conf) consumed by the decision
engine: the BSD-style `lookup` token list, the unrecognized-directive flag,
and the read-error classification (`none` models a nil error). -/
structure dnsConfig where
  lookup : List String
  unknownOpt : Bool
  err : Option fsError
deriving DecidableEq, Repr

/-- Field of `Resolver` consumed by the engine (`PreferGo`). -/
structure Resolver where
  PreferGo : Bool
deriving DecidableEq, Repr

/-- Model of the nil-tolerant method `(r *Resolver) preferGo()`:
`r != nil && r.PreferGo`. -/
def preferGo : Option Resolver → Bool
  | none => false
  | some res => res.PreferGo

/-- System network configuration, `conf` in `conf.go`. -/
structure conf where
  forceCgoLookupHost : Bool
  netGo : Bool
  netCgo : Bool
  hasMDNSAllow : Bool
  goos : String
  dnsDebugLevel : Nat
  resolv : dnsConfig
deriving DecidableEq, Repr

/-- Modelled from the spec: one entry of the parsed NSS sources list (the
`nssConf` parser lives in `nsswitch.go`, outside the sources at hand).  Per
the spec's data model an `NSSSource` carries its `name` and a precomputed
`hasStandardCriteria` flag: whether every bracketed criterion attached to the
source matches the canonical default action for its status.  The engine only
reads that flag (`src.standardCriteria()`), so it is carried as a field. -/
structure nssSource where
  source : String
  standardCriteria : Bool
deriving DecidableEq, Repr

/-- Modelled from the spec: parsed NSS configuration (`nssConf` in
`nsswitch.go`, outside the sources at hand): a map from database name to its
ordered source list, plus an open/parse error classification where `none`
models a nil error and `some .notExist` the absent-file class. -/
structure nssConf where
  sources : List (String × List nssSource)
  err : Option fsError
deriving DecidableEq, Repr

/-- Modelled from the spec: Go map indexing `nss.sources["hosts"]`, with the
map's empty-slice zero value when the key is missing. -/
def nssSources (nss : nssConf) (db : String) : List nssSource :=
  match nss.sources.find? (fun p => p.1 == db) with
  | some p => p.2
  | none => []

/-- Direct model of `isLocalhost` in `conf.go`. -/
def isLocalhost (h : String) : Bool :=
  stringsEqualFold h "localhost" || stringsEqualFold h "localhost.localdomain" ||
    stringsHasSuffixFold h ".localhost" || stringsHasSuffixFold h ".localhost.localdomain"

/-- Direct model of `isGateway` in `conf.go`. -/
def isGateway (h : String) : Bool :=
  stringsEqualFold h "_gateway"

/-- Direct model of `isOutbound` in `conf.go`. -/
def isOutbound (h : String) : Bool :=
  stringsEqualFold h "_outbound"

/-- Step 1 of `hostLookupOrder`: the `fallbackOrder` local.  It starts as
`hostLookupCgo` and is upgraded when the Go resolver is forced by the config
(`netGo`) or the per-call resolver (`preferGo`): to DNS-only on windows, to
files+dns elsewhere. -/
def fallbackOrderDef (c : conf) (r : Option Resolver) : hostLookupOrder :=
  if c.netGo || preferGo r then
    (if c.goos = "windows" then .hostLookupDNS else .hostLookupFilesDNS)
  else .hostLookupCgo

/-- The OpenBSD branch of `hostLookupOrder` (`conf.go` lines 170-208):
no nsswitch.conf on that platform; the answer is read off `resolv.lookup`.
`headD`/`getD` model the indexing `lookup[0]`/`lookup[1]`, which the
surrounding length tests make safe. -/
def openbsdLookup (resolv : dnsConfig) (fallbackOrder : hostLookupOrder) : hostLookupOrder :=
  if resolv.err = some fsError.notExist then .hostLookupFiles
  else if resolv.lookup.length = 0 then .hostLookupDNSFiles
  else if resolv.lookup.length < 1 ∨ resolv.lookup.length > 2 then fallbackOrder
  else if resolv.lookup.headD "" = "bind" then
    (if resolv.lookup.length = 2 then
      (if resolv.lookup.getD 1 "" = "file" then .hostLookupDNSFiles else fallbackOrder)
     else .hostLookupDNS)
  else if resolv.lookup.headD "" = "file" then
    (if resolv.lookup.length = 2 then
      (if resolv.lookup.getD 1 "" = "bind" then .hostLookupFilesDNS else fallbackOrder)
     else .hostLookupFiles)
  else fallbackOrder

/-- The source-scanning loop of `hostLookupOrder` (`conf.go` lines 240-301)
including the post-loop mdns.allow check and final classification, with the
loop state (`mdnsSource`, `filesSource`, `dnsSource`, `first`) explicit.
`gh` is the result of the `getHostname()` call (`none` models a non-nil
error).  Early `return` statements in the loop body become immediate
results. -/
def scanSources (c : conf) (gh : Option String) (hostname : String)
    (fallbackOrder : hostLookupOrder) :
    List nssSource → Bool → Bool → Bool → String → hostLookupOrder
  | [], mdnsSource, filesSource, dnsSource, first =>
    if mdnsSource && c.hasMDNSAllow then fallbackOrder
    else if filesSource && dnsSource then
      (if first = "files" then .hostLookupFilesDNS else .hostLookupDNSFiles)
    else if filesSource then .hostLookupFiles
    else if dnsSource then .hostLookupDNS
    else fallbackOrder
  | src :: rest, mdnsSource, filesSource, dnsSource, first =>
    if src.source = "myhostname" then
      (if isLocalhost hostname || isGateway hostname || isOutbound hostname then fallbackOrder
       else
         match gh with
         | none => fallbackOrder
         | some hn =>
           if stringsEqualFold hostname hn then fallbackOrder
           else scanSources c gh hostname fallbackOrder rest mdnsSource filesSource dnsSource first)
    else if src.source = "files" ∨ src.source = "dns" then
      (if !src.standardCriteria then fallbackOrder
       else if src.source = "files" then
         scanSources c gh hostname fallbackOrder rest mdnsSource true dnsSource
           (if first = "" then src.source else first)
       else
         scanSources c gh hostname fallbackOrder rest mdnsSource filesSource true
           (if first = "" then src.source else first))
    else if stringsHasPrefixB src.source "mdns" then
      scanSources c gh hostname fallbackOrder rest true filesSource dnsSource first
    else fallbackOrder

/-- Hostname canonicalization in `hostLookupOrder` (`conf.go` lines 210-213):
strip one trailing dot. -/
def canonicalHostname (hostname : String) : String :=
  if stringsHasSuffix hostname "." then String.mk hostname.data.dropLast else hostname

/-- Steps 6-10 of `hostLookupOrder` (`conf.go` lines 214-301), applied to the
already canonicalized hostname: the `.local` punt, the NSS absent/empty and
parse-error rules, and the source scan. -/
def nssPhase (c : conf) (r : Option Resolver) (gh : Option String) (nss : nssConf)
    (hostname : String) : hostLookupOrder :=
  if stringsHasSuffixFold hostname ".local" then fallbackOrderDef c r
  else if nss.err = some fsError.notExist ∨
      (nss.err = none ∧ (nssSources nss "hosts").length = 0) then
    (if c.goos = "solaris" then fallbackOrderDef c r else .hostLookupFilesDNS)
  else if ¬ (nss.err = none) then fallbackOrderDef c r
  else scanSources c gh hostname (fallbackOrderDef c r) (nssSources nss "hosts") false false false ""

/-- The decision engine `(c *conf) hostLookupOrder(r, hostname)` of
`conf.go`, with the two process-global reads made explicit: `gh` is the
result of `getHostname()` and `nss` the value of `getSystemNSS()`. -/
def hostLookupOrderDef (c : conf) (r : Option Resolver) (gh : Option String)
    (nss : nssConf) (hostname : String) : hostLookupOrder :=
  if c.goos = "windows" ∨ c.goos = "plan9" then fallbackOrderDef c r
  else if c.forceCgoLookupHost = true ∨ c.resolv.unknownOpt = true ∨ c.goos = "android" then
    fallbackOrderDef c r
  else if containsByteString hostname '\\' = true ∨ containsByteString hostname '%' = true then
    fallbackOrderDef c r
  else if c.goos = "openbsd" then openbsdLookup c.resolv (fallbackOrderDef c r)
  else nssPhase c r gh nss (canonicalHostname hostname)

/-- Parsed resolv.conf of a nonexistent file (the test harness's
`defaultResolvConf`): no lookup tokens, no unknown directive, absent-file
error. -/
def defaultResolvConf : dnsConfig :=
  { lookup := [], unknownOpt := false, err := some fsError.notExist }

/-- Plain linux-family configuration used as a running example. -/
def confLinux : conf :=
  { forceCgoLookupHost := false, netGo := false, netCgo := false, hasMDNSAllow := false,
    goos := "linux", dnsDebugLevel := 0, resolv := defaultResolvConf }

/-- NSS configuration of an absent nsswitch.conf. -/
def nssNotExist : nssConf := { sources := [], err := some fsError.notExist }

/-- NSS configuration with a "hosts" line listing files then dns, both with
default criteria. -/
def nssFilesDns : nssConf :=
  { sources := [("hosts", [⟨"files", true⟩, ⟨"dns", true⟩])], err := none }

/-- NSS configuration with a "hosts" line listing dns then files. -/
def nssDnsFiles : nssConf :=
  { sources := [("hosts", [⟨"dns", true⟩, ⟨"files", true⟩])], err := none }

/-- NSS configuration parsed from "foo: bar": no "hosts" database. -/
def nssFooBar : nssConf := { sources := [("foo", [⟨"bar", true⟩])], err := none }

/-- NSS configuration with "hosts: files dns myhostname". -/
def nssMyhostname : nssConf :=
  { sources := [("hosts", [⟨"files", true⟩, ⟨"dns", true⟩, ⟨"myhostname", true⟩])],
    err := none }

/-- Condition for a call to get past steps 2-5 of the rule chain and reach
the hostname canonicalization / NSS consultation part of the engine: not a
no-native-resolver platform, not forced native, no unrecognized resolv
directive, not android, no backslash or percent in the hostname, and not the
BSD special-case platform. -/
def reachesNSSbase (c : conf) (hostname : String) : Prop :=
  ¬ (c.goos = "windows" ∨ c.goos = "plan9") ∧
  ¬ (c.forceCgoLookupHost = true ∨ c.resolv.unknownOpt = true ∨ c.goos = "android") ∧
  ¬ (containsByteString hostname '\\' = true ∨ containsByteString hostname '%' = true) ∧
  ¬ (c.goos = "openbsd")

instance (c : conf) (hostname : String) : Decidable (reachesNSSbase c hostname) := by
  unfold reachesNSSbase; infer_instance

/-- Trigger condition of the `"myhostname"` source (spec §4.2 step 8): the
hostname is a localhost form, the gateway or outbound name, the machine
hostname lookup failed, or the hostname fold-matches the machine hostname. -/
def myhostnamePunts (gh : Option String) (hostname : String) : Bool :=
  isLocalhost hostname || isGateway hostname || isOutbound hostname ||
    (match gh with
     | none => true
     | some hn => stringsEqualFold hostname hn)

/-- Condition under which a single scanned source makes the engine return the
fallback: a triggering `"myhostname"` source, a `"files"`/`"dns"` source with
non-standard criteria, or an unrecognized (non-mdns) source name. -/
def srcPunts (gh : Option String) (hostname : String) (s : nssSource) : Bool :=
  if s.source = "myhostname" then myhostnamePunts gh hostname
  else if s.source = "files" ∨ s.source = "dns" then !s.standardCriteria
  else !(stringsHasPrefixB s.source "mdns")

/-- Presence of a standard-criteria-irrelevant mdns-prefixed source (spec
§4.2 step 8, third bullet). -/
def anyMdnsSrc (srcs : List nssSource) : Bool :=
  srcs.any (fun s => stringsHasPrefixB s.source "mdns")

/-- Presence of a `"files"` source (spec §4.2 step 10). -/
def hasFilesSrc (srcs : List nssSource) : Bool :=
  srcs.any (fun s => decide (s.source = "files"))

/-- Presence of a `"dns"` source (spec §4.2 step 10). -/
def hasDnsSrc (srcs : List nssSource) : Bool :=
  srcs.any (fun s => decide (s.source = "dns"))

/-- Name of the first `"files"`/`"dns"` source in file order, or the empty
string when there is none (spec §4.2 step 10: which of the two appeared
first). -/
def firstFDSrc (srcs : List nssSource) : String :=
  match srcs.find? (fun s => decide (s.source = "files" ∨ s.source = "dns")) with
  | some s => s.source
  | none => ""

/-- Final classification of the scan, written from the claim: both present
gives files+dns or dns+files by which came first, one present gives that one
alone, neither gives the fallback. -/
def claimClassify (filesSrc dnsSrc : Bool) (first : String)
    (fallback : hostLookupOrder) : hostLookupOrder :=
  if filesSrc && dnsSrc then
    (if first = "files" then .hostLookupFilesDNS else .hostLookupDNSFiles)
  else if filesSrc then .hostLookupFiles
  else if dnsSrc then .hostLookupDNS
  else fallback

/-- Explicit-lookup-order mapping written from the claim: absent config file
to files-only, empty lookup list to dns-then-files, then the four recognized
token lists, and everything else to the fallback. -/
def openbsdSpecMapping (resolv : dnsConfig) (fallback : hostLookupOrder) : hostLookupOrder :=
  if resolv.err = some fsError.notExist then .hostLookupFiles
  else if resolv.lookup = [] then .hostLookupDNSFiles
  else if resolv.lookup = ["bind"] then .hostLookupDNS
  else if resolv.lookup = ["bind", "file"] then .hostLookupDNSFiles
  else if resolv.lookup = ["file"] then .hostLookupFiles
  else if resolv.lookup = ["file", "bind"] then .hostLookupFilesDNS
  else fallback

/-- Fallback value written from the claim: built-in resolver selected by the
configuration or the per-call override gives dns-only on the
no-local-file-lookup family and files+dns otherwise; in all other cases the
native order. -/
def specFallback (c : conf) (r : Option Resolver) : hostLookupOrder :=
  if (c.netGo || preferGo r) = true then
    (if c.goos = "windows" then .hostLookupDNS else .hostLookupFilesDNS)
  else .hostLookupCgo

/-- Go error values as consumed by `errors.Join`: either a leaf error with
its message, or a `joinError` wrapping a list of errors. -/
inductive GoError where
  | base (msg : String)
  | joinError (errs : List GoError)

mutual

/-- The `Error()` method: a leaf returns its message; `joinError.Error`
(lines 42-52 of the errors file) appends each wrapped error's message,
preceded by a newline for every element after the first. -/
def GoError.Error : GoError → String
  | .base msg => msg
  | .joinError es => joinErrorMsg es

/-- The loop body of `joinError.Error`: messages of the list, newline
separated. -/
def joinErrorMsg : List GoError → String
  | [] => ""
  | [e] => GoError.Error e
  | e :: rest => GoError.Error e ++ "\n" ++ joinErrorMsg rest

end

/-- The `Unwrap() []error` method of `joinError`: the wrapped list (a leaf
error has no `Unwrap`, modelled as the empty list). -/
def GoError.Unwrap : GoError → List GoError
  | .base _ => []
  | .joinError es => es

/-- Direct model of `errors.Join` (lines 14-36 of the errors file): count
the non-nil arguments, return nil when there are none, and otherwise wrap
exactly the non-nil arguments, in order, in a `joinError`. -/
def Join (errs : List (Option GoError)) : Option GoError :=
  let n := (errs.filter (fun e => e.isSome)).length
  if n = 0 then none
  else some (GoError.joinError (errs.filterMap id))

example : hostLookupOrderDef confLinux none (some "myhostname") nssFilesDns "x.com"
    = .hostLookupFilesDNS := by decide

example : hostLookupOrderDef confLinux none (some "myhostname") nssDnsFiles "x.com"
    = .hostLookupDNSFiles := by decide

example : hostLookupOrderDef confLinux none (some "myhostname") nssNotExist "google.com"
    = .hostLookupFilesDNS := by decide

example : hostLookupOrderDef { confLinux with forceCgoLookupHost := true } none
    (some "myhostname") nssFooBar "foo.local" = .hostLookupCgo := by decide

example : hostLookupOrderDef { confLinux with netGo := true } none (some "myhostname")
    nssDnsFiles "x.com" = .hostLookupDNSFiles := by decide

example : hostLookupOrderDef { confLinux with netGo := true } none (some "myhostname")
    { sources := [("hosts", [⟨"dns", true⟩, ⟨"files", true⟩, ⟨"something_custom", true⟩])],
      err := none } "x.com" = .hostLookupFilesDNS := by decide

example : hostLookupOrderDef confLinux none (some "myhostname")
    { sources := [("hosts", [⟨"files", true⟩, ⟨"mdns4_minimal", false⟩, ⟨"dns", true⟩,
        ⟨"mdns4", true⟩])], err := none } "foo.LOCAL." = .hostLookupCgo := by decide

example : hostLookupOrderDef confLinux none (some "myhostname")
    { sources := [("hosts", [⟨"files", true⟩, ⟨"mdns4_minimal", false⟩, ⟨"dns", true⟩,
        ⟨"mdns4", true⟩])], err := none } "google.com" = .hostLookupFilesDNS := by decide

example : hostLookupOrderDef { confLinux with goos := "freebsd" } none (some "myhostname")
    nssFooBar "google.com" = .hostLookupFilesDNS := by decide

example : hostLookupOrderDef { confLinux with goos := "openbsd" } none (some "myhostname")
    nssFooBar "google.com" = .hostLookupFiles := by decide

example : hostLookupOrderDef { confLinux with goos := "solaris" } none (some "myhostname")
    nssNotExist "google.com" = .hostLookupCgo := by decide

example : hostLookupOrderDef
    { confLinux with
      goos := "openbsd",
      resolv := { lookup := ["bind", "file"], unknownOpt := false, err := none } } none
    (some "myhostname") nssFooBar "foo.local" = .hostLookupDNSFiles := by decide

example : hostLookupOrderDef
    { confLinux with
      goos := "openbsd",
      resolv := { lookup := ["file", "bind"], unknownOpt := false, err := none } } none
    (some "myhostname") nssFooBar "google.com" = .hostLookupFilesDNS := by decide

example : hostLookupOrderDef
    { confLinux with
      goos := "openbsd",
      resolv := { lookup := ["bind"], unknownOpt := false, err := none } } none
    (some "myhostname") nssFooBar "google.com" = .hostLookupDNS := by decide

example : hostLookupOrderDef
    { confLinux with
      goos := "openbsd",
      resolv := { lookup := ["file"], unknownOpt := false, err := none } } none
    (some "myhostname") nssFooBar "google.com" = .hostLookupFiles := by decide

example : hostLookupOrderDef
    { confLinux with
      goos := "openbsd",
      resolv := { lookup := ["file", "bind", "yp"], unknownOpt := false, err := none } } none
    (some "myhostname") nssFooBar "google.com" = .hostLookupCgo := by decide

example : hostLookupOrderDef
    { confLinux with
      goos := "openbsd",
      resolv := { lookup := ["file", "foo"], unknownOpt := false, err := none } } none
    (some "myhostname") nssFooBar "google.com" = .hostLookupCgo := by decide

example : hostLookupOrderDef
    { confLinux with
      goos := "openbsd",
      resolv := { lookup := [], unknownOpt := false, err := none } } none
    (some "myhostname") nssFooBar "google.com" = .hostLookupDNSFiles := by decide

example : hostLookupOrderDef confLinux none (some "myhostname")
    { sources := [("hosts", [⟨"dns", true⟩])], err := none } "x\\.com"
    = .hostLookupCgo := by decide

example : hostLookupOrderDef confLinux none (some "myhostname")
    { sources := [("hosts", [⟨"dns", true⟩])], err := none } "foo.com%en0"
    = .hostLookupCgo := by decide

example : hostLookupOrderDef confLinux none (some "myhostname")
    { sources := [("hosts", [⟨"dns", true⟩])], err := none } "x.com"
    = .hostLookupDNS := by decide

example : hostLookupOrderDef { confLinux with hasMDNSAllow := true } none (some "myhostname")
    { sources := [("hosts", [⟨"files", true⟩, ⟨"mdns", true⟩, ⟨"dns", true⟩])], err := none }
    "x.com" = .hostLookupCgo := by decide

example : hostLookupOrderDef confLinux none (some "myhostname")
    { sources := [("hosts", [⟨"dns", true⟩, ⟨"files", true⟩, ⟨"something_custom", true⟩])],
      err := none } "x.com" = .hostLookupCgo := by decide

example : hostLookupOrderDef confLinux none (some "myhostname") nssMyhostname "x.com"
    = .hostLookupFilesDNS := by decide

example : hostLookupOrderDef confLinux none (some "myhostname") nssMyhostname "myHostname"
    = .hostLookupCgo := by decide

example : hostLookupOrderDef confLinux none (some "myhostname.dot") nssMyhostname
    "myHostname.dot" = .hostLookupCgo := by decide

example : hostLookupOrderDef confLinux none (some "myhostname") nssMyhostname "_Gateway"
    = .hostLookupCgo := by decide

example : hostLookupOrderDef confLinux none (some "myhostname") nssMyhostname "_Outbound"
    = .hostLookupCgo := by decide

example : hostLookupOrderDef confLinux none (some "myhostname") nssMyhostname
    "Anything.localhost" = .hostLookupCgo := by decide

example : hostLookupOrderDef confLinux none (some "myhostname") nssMyhostname
    "Anything.Localhost.Localdomain" = .hostLookupCgo := by decide

example : hostLookupOrderDef confLinux none (some "myhostname") nssMyhostname "somehostname"
    = .hostLookupFilesDNS := by decide

example : hostLookupOrderDef confLinux none (some "myhostname") nssMyhostname ""
    = .hostLookupFilesDNS := by decide

example : hostLookupOrderDef confLinux none (some "myhostname")
    { sources := [("hosts", [⟨"files", true⟩, ⟨"myhostname", true⟩, ⟨"mdns4_minimal", false⟩,
        ⟨"dns", true⟩, ⟨"mdns4", true⟩])], err := none } "x.com"
    = .hostLookupFilesDNS := by decide

example : hostLookupOrderDef confLinux none (some "myhostname")
    { sources := [("hosts", [⟨"dns", true⟩, ⟨"files", true⟩])], err := none } "somehostname"
    = .hostLookupDNSFiles := by decide

example : hostLookupOrderDef
    { confLinux with
      resolv := { lookup := [], unknownOpt := true, err := none } } none
    (some "myhostname") nssFooBar "google.com" = .hostLookupCgo := by decide

example : hostLookupOrderDef { confLinux with goos := "android" } none (some "myhostname")
    { sources := [], err := none } "x.com" = .hostLookupCgo := by decide

example : hostLookupOrderDef
    { confLinux with
      goos := "darwin", forceCgoLookupHost := true, netCgo := true }
    (some { PreferGo := true }) (some "myhostname") { sources := [], err := none } "localhost"
    = .hostLookupFilesDNS := by decide

theorem hostLookupOrder_reach (c : conf) (r : Option Resolver) (gh : Option String)
    (nss : nssConf) (hostname : String) (h : reachesNSSbase c hostname) :
    hostLookupOrderDef c r gh nss hostname = nssPhase c r gh nss (canonicalHostname hostname) := by
  obtain ⟨h1, h2, h3, h4⟩ := h
  unfold hostLookupOrderDef
  rw [if_neg h1, if_neg h2, if_neg h3, if_neg h4]

theorem scanSources_punt (c : conf) (gh : Option String) (hostname : String)
    (fb : hostLookupOrder) :
    ∀ (srcs : List nssSource) (m f d : Bool) (first : String),
      (∃ s ∈ srcs, srcPunts gh hostname s = true) →
      scanSources c gh hostname fb srcs m f d first = fb := by
  intro srcs
  induction srcs with
  | nil => intro m f d first h; simp at h
  | cons src rest ih =>
    intro m f d first h
    obtain ⟨s, hs, hp⟩ := h
    unfold scanSources
    by_cases h1 : src.source = "myhostname"
    · rw [if_pos h1]
      by_cases hloc : (isLocalhost hostname || isGateway hostname || isOutbound hostname) = true
      · rw [if_pos hloc]
      · rw [if_neg hloc]
        cases gh with
        | none => rfl
        | some hn =>
          simp only []
          by_cases heq : stringsEqualFold hostname hn = true
          · rw [if_pos heq]
          · rw [if_neg heq]
            apply ih
            rcases List.mem_cons.mp hs with hhead | htail
            · exfalso
              subst hhead
              rw [srcPunts, if_pos h1] at hp
              unfold myhostnamePunts at hp
              simp only [Bool.not_eq_true] at hloc
              rw [hloc] at hp
              simp [heq] at hp
            · exact ⟨s, htail, hp⟩
    · rw [if_neg h1]
      by_cases h2 : src.source = "files" ∨ src.source = "dns"
      · rw [if_pos h2]
        by_cases hstd : (!src.standardCriteria) = true
        · rw [if_pos hstd]
        · rw [if_neg hstd]
          have hrest : ∃ s ∈ rest, srcPunts gh hostname s = true := by
            rcases List.mem_cons.mp hs with hhead | htail
            · exfalso
              subst hhead
              rw [srcPunts, if_neg h1, if_pos h2] at hp
              exact hstd hp
            · exact ⟨s, htail, hp⟩
          by_cases hf : src.source = "files"
          · rw [if_pos hf]; exact ih _ _ _ _ hrest
          · rw [if_neg hf]; exact ih _ _ _ _ hrest
      · rw [if_neg h2]
        by_cases hm : stringsHasPrefixB src.source "mdns" = true
        · rw [if_pos hm]
          apply ih
          rcases List.mem_cons.mp hs with hhead | htail
          · exfalso
            subst hhead
            rw [srcPunts, if_neg h1, if_neg h2] at hp
            simp [hm] at hp
          · exact ⟨s, htail, hp⟩
        · rw [if_neg hm]

theorem scanSources_nopunt (c : conf) (gh : Option String) (hostname : String)
    (fb : hostLookupOrder) :
    ∀ (srcs : List nssSource) (m f d : Bool) (first : String),
      (∀ s ∈ srcs, srcPunts gh hostname s = false) →
      scanSources c gh hostname fb srcs m f d first =
        (if (m || anyMdnsSrc srcs) && c.hasMDNSAllow then fb
         else claimClassify (f || hasFilesSrc srcs) (d || hasDnsSrc srcs)
           (if first = "" then firstFDSrc srcs else first) fb) := by
  intro srcs
  induction srcs with
  | nil =>
    intro m f d first _
    simp only [scanSources, anyMdnsSrc, hasFilesSrc, hasDnsSrc, firstFDSrc, List.any_nil,
      List.find?_nil, Bool.or_false, claimClassify]
    by_cases hf : first = "" <;> simp [hf]
  | cons src rest ih =>
    intro m f d first hnp
    have hsrc := hnp src (List.mem_cons_self src rest)
    have hrest : ∀ s ∈ rest, srcPunts gh hostname s = false :=
      fun s hs => hnp s (List.mem_cons_of_mem src hs)
    unfold scanSources
    by_cases h1 : src.source = "myhostname"
    · rw [srcPunts, if_pos h1] at hsrc
      rw [if_pos h1]
      unfold myhostnamePunts at hsrc
      simp only [Bool.or_eq_false_iff] at hsrc
      obtain ⟨⟨⟨hl, hg⟩, ho⟩, hsrc2⟩ := hsrc
      rw [if_neg (by simp [hl, hg, ho])]
      cases gh with
      | none => simp at hsrc2
      | some hn =>
        simp only [] at hsrc2 ⊢
        rw [if_neg (by simp [hsrc2])]
        rw [ih _ _ _ _ hrest]
        have hmd : anyMdnsSrc (src :: rest) = anyMdnsSrc rest := by
          simp [anyMdnsSrc, h1]; intro hpre; simp [stringsHasPrefixB, h1] at hpre
        have hfi : hasFilesSrc (src :: rest) = hasFilesSrc rest := by
          simp [hasFilesSrc, h1]
        have hdn : hasDnsSrc (src :: rest) = hasDnsSrc rest := by
          simp [hasDnsSrc, h1]
        have hfd : firstFDSrc (src :: rest) = firstFDSrc rest := by
          simp [firstFDSrc, List.find?_cons, h1]
        rw [hmd, hfi, hdn, hfd]
    · rw [srcPunts, if_neg h1] at hsrc
      rw [if_neg h1]
      by_cases h2 : src.source = "files" ∨ src.source = "dns"
      · rw [if_pos h2] at hsrc
        rw [if_pos h2]
        simp only [Bool.not_eq_false'] at hsrc
        rw [if_neg (by simp [hsrc])]
        have hmd : anyMdnsSrc (src :: rest) = anyMdnsSrc rest := by
          rcases h2 with h2 | h2 <;>
            (simp [anyMdnsSrc, h2]; intro hpre; simp [stringsHasPrefixB, h2] at hpre)
        by_cases hf : src.source = "files"
        · rw [if_pos hf]
          rw [ih _ _ _ _ hrest]
          have hfi : hasFilesSrc (src :: rest) = true := by simp [hasFilesSrc, hf]
          have hdn : hasDnsSrc (src :: rest) = hasDnsSrc rest := by
            simp [hasDnsSrc, hf]
          have hfd : firstFDSrc (src :: rest) = "files" := by
            simp [firstFDSrc, List.find?_cons, hf]
          rw [hmd, hfi, hdn, hfd]
          simp only [Bool.or_true, Bool.true_and]
          by_cases hfirst : first = ""
          · simp only [hfirst, if_pos rfl, hf]
            by_cases hall : anyMdnsSrc rest = true <;> simp [hall]
          · simp only [if_neg hfirst, hf]
            simp
        · have hd : src.source = "dns" := h2.resolve_left hf
          rw [if_neg hf]
          rw [ih _ _ _ _ hrest]
          have hfi : hasFilesSrc (src :: rest) = hasFilesSrc rest := by
            simp [hasFilesSrc, hd]
          have hdn : hasDnsSrc (src :: rest) = true := by simp [hasDnsSrc, hd]
          have hfd : firstFDSrc (src :: rest) = "dns" := by
            simp [firstFDSrc, List.find?_cons, hd]
          rw [hmd, hfi, hdn, hfd]
          simp only [Bool.or_true, Bool.true_and]
          by_cases hfirst : first = ""
          · simp only [hfirst, if_pos rfl, hd]
            by_cases hall : anyMdnsSrc rest = true <;> simp [hall]
          · simp only [if_neg hfirst, hd]
            simp
      · rw [if_neg h2] at hsrc
        rw [if_neg h2]
        simp only [Bool.not_eq_false'] at hsrc
        rw [if_pos hsrc]
        rw [ih _ _ _ _ hrest]
        have hmd : anyMdnsSrc (src :: rest) = true := by simp [anyMdnsSrc, hsrc]
        have hfi : hasFilesSrc (src :: rest) = hasFilesSrc rest := by
          simp only [hasFilesSrc, List.any_cons]
          have : ¬ src.source = "files" := fun hh => h2 (Or.inl hh)
          simp [this]
        have hdn : hasDnsSrc (src :: rest) = hasDnsSrc rest := by
          simp only [hasDnsSrc, List.any_cons]
          have : ¬ src.source = "dns" := fun hh => h2 (Or.inr hh)
          simp [this]
        have hfd : firstFDSrc (src :: rest) = firstFDSrc rest := by
          simp [firstFDSrc, List.find?_cons, h2]
        rw [hmd, hfi, hdn, hfd]
        simp only [Bool.or_true, Bool.true_or]

theorem scanSources_filter_myhostname (c : conf) (gh : Option String) (hostname : String)
    (fb : hostLookupOrder) (hnp : myhostnamePunts gh hostname = false) :
    ∀ (srcs : List nssSource) (m f d : Bool) (first : String),
      scanSources c gh hostname fb
          (srcs.filter (fun s => !(decide (s.source = "myhostname")))) m f d first =
        scanSources c gh hostname fb srcs m f d first := by
  unfold myhostnamePunts at hnp
  simp only [Bool.or_eq_false_iff] at hnp
  obtain ⟨⟨⟨hl, hg⟩, ho⟩, hmatch⟩ := hnp
  intro srcs
  induction srcs with
  | nil => intro m f d first; rfl
  | cons src rest ih =>
    intro m f d first
    by_cases h1 : src.source = "myhostname"
    · rw [List.filter_cons_of_neg (by simp [h1])]
      rw [ih]
      conv_rhs => unfold scanSources
      rw [if_pos h1, if_neg (by simp [hl, hg, ho])]
      cases gh with
      | none => simp at hmatch
      | some hn =>
        simp only [] at hmatch ⊢
        rw [if_neg (by simp [hmatch])]
    · rw [List.filter_cons_of_pos (by simp [h1])]
      conv_lhs => unfold scanSources
      conv_rhs => unfold scanSources
      rw [if_neg h1, if_neg h1]
      by_cases h2 : src.source = "files" ∨ src.source = "dns"
      · rw [if_pos h2, if_pos h2]
        by_cases hstd : (!src.standardCriteria) = true
        · rw [if_pos hstd, if_pos hstd]
        · rw [if_neg hstd, if_neg hstd]
          by_cases hf : src.source = "files"
          · rw [if_pos hf, if_pos hf, ih]
          · rw [if_neg hf, if_neg hf, ih]
      · rw [if_neg h2, if_neg h2]
        by_cases hm : stringsHasPrefixB src.source "mdns" = true
        · rw [if_pos hm, if_pos hm, ih]
        · rw [if_neg hm, if_neg hm]

theorem openbsdLookup_eq_spec (resolv : dnsConfig) (fb : hostLookupOrder) :
    openbsdLookup resolv fb = openbsdSpecMapping resolv fb := by
  unfold openbsdLookup openbsdSpecMapping
  by_cases he : resolv.err = some fsError.notExist
  · rw [if_pos he, if_pos he]
  · rw [if_neg he, if_neg he]
    rcases hl : resolv.lookup with _ | ⟨a, _ | ⟨b, _ | ⟨e, rest⟩⟩⟩
    · simp
    · simp only [List.length_cons, List.length_nil, List.headD, List.getD]
      by_cases ha : a = "bind"
      · subst ha; simp
      · by_cases ha2 : a = "file"
        · subst ha2; simp
        · simp [ha, ha2]
    · simp only [List.length_cons, List.length_nil, List.headD, List.getD]
      by_cases ha : a = "bind"
      · subst ha
        by_cases hb : b = "file"
        · subst hb; simp
        · simp [hb]
      · by_cases ha2 : a = "file"
        · subst ha2
          by_cases hb : b = "bind"
          · subst hb; simp
          · simp [hb]
        · simp [ha, ha2]
    · simp [Nat.succ_lt_succ]

theorem stringsEqualFold_empty_left (hn : String) (h : ¬ hn = "") :
    stringsEqualFold "" hn = false := by
  unfold stringsEqualFold
  cases hn with
  | mk data =>
    cases data with
    | nil => exact absurd rfl h
    | cons a l => rfl

theorem intercalate_go_append (s : String) :
    ∀ (as : List String) (acc₁ acc₂ : String),
      String.intercalate.go (acc₁ ++ acc₂) s as = acc₁ ++ String.intercalate.go acc₂ s as := by
  intro as
  induction as with
  | nil => intro acc₁ acc₂; rfl
  | cons a l ih =>
    intro acc₁ acc₂
    show String.intercalate.go (acc₁ ++ acc₂ ++ s ++ a) s l =
      acc₁ ++ String.intercalate.go (acc₂ ++ s ++ a) s l
    simp only [String.append_assoc]
    exact ih acc₁ (acc₂ ++ (s ++ a))

theorem joinErrorMsg_eq_intercalate : ∀ es : List GoError,
    joinErrorMsg es = String.intercalate "\n" (es.map GoError.Error) := by
  intro es
  induction es with
  | nil => rfl
  | cons e rest ih =>
    cases rest with
    | nil =>
      show joinErrorMsg [e] = _
      simp only [joinErrorMsg]
      rfl
    | cons b l =>
      simp only [joinErrorMsg]
      rw [ih]
      show GoError.Error e ++ "\n" ++ String.intercalate "\n" (List.map GoError.Error (b :: l)) =
        String.intercalate.go (GoError.Error e ++ "\n" ++ GoError.Error b) "\n"
          (List.map GoError.Error l)
      rw [intercalate_go_append]
      rfl

/-- C1 as stated is false: on the linux-like default family with the
built-in resolver not selected, an absent NSS config yields files+dns, while
the step-1 fallback is the native order. -/
theorem c1_counterexample :
    hostLookupOrderDef confLinux none (some "myhostname") nssNotExist "google.com" ≠
      fallbackOrderDef confLinux none := by
  decide

/-- C1 amended: when the NSS config file is absent, or parsed without error
but lists no sources for "hosts", a call that reaches the NSS step returns
the step-1 fallback on solaris and files+dns on every other family (the two
agree exactly when the fallback itself is files+dns). -/
theorem c1_amended (c : conf) (r : Option Resolver) (gh : Option String) (nss : nssConf)
    (hostname : String) (hreach : reachesNSSbase c hostname)
    (hlocal : stringsHasSuffixFold (canonicalHostname hostname) ".local" = false)
    (habsent : nss.err = some fsError.notExist ∨
      (nss.err = none ∧ (nssSources nss "hosts").length = 0)) :
    hostLookupOrderDef c r gh nss hostname =
      (if c.goos = "solaris" then fallbackOrderDef c r else .hostLookupFilesDNS) := by
  rw [hostLookupOrder_reach c r gh nss hostname hreach]
  unfold nssPhase
  rw [if_neg (by simp [hlocal]), if_pos habsent]

/-- C1 witness: absent nsswitch.conf on linux gives files+dns. -/
theorem c1_amended_witness :
    hostLookupOrderDef confLinux none (some "myhostname") nssNotExist "google.com" =
      (if confLinux.goos = "solaris" then fallbackOrderDef confLinux none
       else .hostLookupFilesDNS) :=
  c1_amended confLinux none (some "myhostname") nssNotExist "google.com"
    (by decide) (by decide) (Or.inl rfl)

/-- C2 as stated is false: on windows with neither netGo nor PreferGo the
engine returns the native order, not the dns-only outcome. -/
theorem c2_counterexample :
    hostLookupOrderDef { confLinux with goos := "windows", netCgo := true } none
        (some "myhostname") nssFilesDns "google.com" ≠ hostLookupOrder.hostLookupDNS := by
  decide

/-- C2 amended: on the families with no native-resolver concept the engine
returns the step-1 fallback regardless of hostname and NSS content (that
value is the dns-only outcome exactly when the built-in resolver is selected
on windows). -/
theorem c2_amended (c : conf) (r : Option Resolver) (gh : Option String) (nss : nssConf)
    (hostname : String) (h : c.goos = "windows" ∨ c.goos = "plan9") :
    hostLookupOrderDef c r gh nss hostname = fallbackOrderDef c r := by
  unfold hostLookupOrderDef
  rw [if_pos h]

/-- C2 witness: concrete windows configuration, arbitrary NSS content and
hostname. -/
theorem c2_amended_witness :
    hostLookupOrderDef { confLinux with goos := "windows", netCgo := true } none
        (some "myhostname") nssFilesDns "google.com" =
      fallbackOrderDef { confLinux with goos := "windows", netCgo := true } none :=
  c2_amended _ none (some "myhostname") nssFilesDns "google.com" (Or.inl rfl)

/-- C3: with the BSD-family platform and a call that reaches step 5, the
engine result is exactly the claim's exhaustive explicit-lookup-order
mapping. -/
theorem c3_openbsd (c : conf) (r : Option Resolver) (gh : Option String) (nss : nssConf)
    (hostname : String) (hgoos : c.goos = "openbsd")
    (hforce : c.forceCgoLookupHost = false) (hunknown : c.resolv.unknownOpt = false)
    (hb : containsByteString hostname '\\' = false)
    (hp : containsByteString hostname '%' = false) :
    hostLookupOrderDef c r gh nss hostname =
      openbsdSpecMapping c.resolv (fallbackOrderDef c r) := by
  unfold hostLookupOrderDef
  rw [if_neg (by rw [hgoos]; decide),
    if_neg (by rw [hgoos]; simp [hforce, hunknown]),
    if_neg (by simp [hb, hp]), if_pos hgoos]
  exact openbsdLookup_eq_spec c.resolv (fallbackOrderDef c r)

/-- C3 witness: an unrecognized second token maps to the fallback. -/
theorem c3_openbsd_witness :
    hostLookupOrderDef
        { confLinux with
          goos := "openbsd",
          resolv := { lookup := ["file", "foo"], unknownOpt := false, err := none } } none
        (some "myhostname") nssFooBar "google.com" =
      openbsdSpecMapping { lookup := ["file", "foo"], unknownOpt := false, err := none }
        (fallbackOrderDef
          { confLinux with
            goos := "openbsd",
            resolv := { lookup := ["file", "foo"], unknownOpt := false, err := none } } none) :=
  c3_openbsd _ none (some "myhostname") nssFooBar "google.com" rfl rfl rfl
    (by decide) (by decide)

/-- C4: the fallback computed in step 1 is exactly the claim's formula, and
each early punting rule of the chain (forced native, unrecognized resolv
directive, the no-native-resolver families, android, backslash or percent in
the hostname) returns exactly this value. -/
theorem c4_fallback_formula : ∀ (c : conf) (r : Option Resolver),
    fallbackOrderDef c r = specFallback c r ∧
    (∀ (gh : Option String) (nss : nssConf) (hostname : String),
      (c.forceCgoLookupHost = true ∨ c.resolv.unknownOpt = true ∨
       c.goos = "windows" ∨ c.goos = "plan9" ∨ c.goos = "android" ∨
       containsByteString hostname '\\' = true ∨ containsByteString hostname '%' = true) →
      hostLookupOrderDef c r gh nss hostname = specFallback c r) := by
  intro c r
  constructor
  · rfl
  · intro gh nss hostname hpunt
    have hfb : fallbackOrderDef c r = specFallback c r := rfl
    unfold hostLookupOrderDef
    by_cases h1 : c.goos = "windows" ∨ c.goos = "plan9"
    · rw [if_pos h1]; exact hfb
    · rw [if_neg h1]
      by_cases h2 : c.forceCgoLookupHost = true ∨ c.resolv.unknownOpt = true ∨
          c.goos = "android"
      · rw [if_pos h2]; exact hfb
      · rw [if_neg h2]
        have h3 : containsByteString hostname '\\' = true ∨
            containsByteString hostname '%' = true := by
          rcases hpunt with h | h | h | h | h | h | h
          · exact absurd (Or.inl h) h2
          · exact absurd (Or.inr (Or.inl h)) h2
          · exact absurd (Or.inl h) h1
          · exact absurd (Or.inr h) h1
          · exact absurd (Or.inr (Or.inr h)) h2
          · exact Or.inl h
          · exact Or.inr h
        rw [if_pos h3]; exact hfb

/-- C4 witness: a forced-native configuration punts to the claimed fallback
value, here with the built-in resolver not selected. -/
theorem c4_fallback_formula_witness :
    fallbackOrderDef { confLinux with forceCgoLookupHost := true } none =
      specFallback { confLinux with forceCgoLookupHost := true } none ∧
    hostLookupOrderDef { confLinux with forceCgoLookupHost := true } none
        (some "myhostname") nssFilesDns "x.com" =
      specFallback { confLinux with forceCgoLookupHost := true } none :=
  ⟨(c4_fallback_formula { confLinux with forceCgoLookupHost := true } none).1,
   (c4_fallback_formula { confLinux with forceCgoLookupHost := true } none).2
     (some "myhostname") nssFilesDns "x.com" (Or.inl (by decide))⟩

/-- C5: a scan that reaches the final classification (every source is a
standard files/dns source, a non-triggering myhostname source, or an
mdns-prefixed source, and the mdns allow-list rule does not fire) returns
the claim's classification of the files/dns flags and of whichever appeared
first. -/
theorem c5_final_classification (c : conf) (r : Option Resolver) (gh : Option String)
    (nss : nssConf) (hostname : String) (hreach : reachesNSSbase c hostname)
    (hlocal : stringsHasSuffixFold (canonicalHostname hostname) ".local" = false)
    (herr : nss.err = none) (hne : ¬ nssSources nss "hosts" = [])
    (hnopunt : ∀ s ∈ nssSources nss "hosts",
      srcPunts gh (canonicalHostname hostname) s = false)
    (hmdns : (anyMdnsSrc (nssSources nss "hosts") && c.hasMDNSAllow) = false) :
    hostLookupOrderDef c r gh nss hostname =
      claimClassify (hasFilesSrc (nssSources nss "hosts"))
        (hasDnsSrc (nssSources nss "hosts")) (firstFDSrc (nssSources nss "hosts"))
        (fallbackOrderDef c r) := by
  rw [hostLookupOrder_reach c r gh nss hostname hreach]
  unfold nssPhase
  rw [if_neg (by simp [hlocal]),
    if_neg (by simp [herr]; exact hne),
    if_neg (by simp [herr]),
    scanSources_nopunt c gh (canonicalHostname hostname) (fallbackOrderDef c r)
      (nssSources nss "hosts") false false false "" hnopunt]
  simp [hmdns]

/-- C5 witness: "dns files" with standard criteria classifies as dns+files. -/
theorem c5_final_classification_witness :
    hostLookupOrderDef confLinux none (some "myhostname") nssDnsFiles "x.com" =
      claimClassify (hasFilesSrc (nssSources nssDnsFiles "hosts"))
        (hasDnsSrc (nssSources nssDnsFiles "hosts"))
        (firstFDSrc (nssSources nssDnsFiles "hosts"))
        (fallbackOrderDef confLinux none) :=
  c5_final_classification confLinux none (some "myhostname") nssDnsFiles "x.com"
    (by decide) (by decide) rfl (by decide) (by decide) (by decide)

/-- C6: with a "myhostname" source among the "hosts" sources, the engine
returns the fallback whenever the claim's trigger holds of the canonicalized
hostname (localhost forms, gateway or outbound names, machine-hostname
lookup failure, or a fold-match with the machine hostname); and when the
trigger does not hold, the source is skipped: the scan is unchanged by
deleting every "myhostname" entry. -/
theorem c6_myhostname : ∀ (c : conf) (r : Option Resolver) (gh : Option String)
    (nss : nssConf) (hostname : String),
    (reachesNSSbase c hostname → nss.err = none →
      (∃ s ∈ nssSources nss "hosts", s.source = "myhostname") →
      myhostnamePunts gh (canonicalHostname hostname) = true →
      hostLookupOrderDef c r gh nss hostname = fallbackOrderDef c r) ∧
    (∀ (h : String) (fb : hostLookupOrder) (srcs : List nssSource) (m f d : Bool)
        (first : String),
      myhostnamePunts gh h = false →
      scanSources c gh h fb (srcs.filter (fun s => !(decide (s.source = "myhostname"))))
          m f d first =
        scanSources c gh h fb srcs m f d first) := by
  intro c r gh nss hostname
  constructor
  · intro hreach herr hmem htrig
    obtain ⟨s, hs, hname⟩ := hmem
    rw [hostLookupOrder_reach c r gh nss hostname hreach]
    unfold nssPhase
    by_cases hlocal : stringsHasSuffixFold (canonicalHostname hostname) ".local" = true
    · rw [if_pos hlocal]
    · rw [if_neg hlocal,
        if_neg (by
          simp [herr]
          intro hnil
          rw [hnil] at hs
          simp at hs),
        if_neg (by simp [herr])]
      apply scanSources_punt
      refine ⟨s, hs, ?_⟩
      rw [srcPunts, if_pos hname]
      exact htrig
  · intro h fb srcs m f d first hnp
    exact scanSources_filter_myhostname c gh h fb hnp srcs m f d first

/-- C6 witness: a hostname fold-equal to the machine hostname falls back,
and with a non-triggering hostname the myhostname entry can be deleted
without changing the scan. -/
theorem c6_myhostname_witness :
    (hostLookupOrderDef confLinux none (some "myhostname") nssMyhostname "myHostname" =
      fallbackOrderDef confLinux none) ∧
    scanSources confLinux (some "myhostname") "somehostname"
        (fallbackOrderDef confLinux none)
        ((nssSources nssMyhostname "hosts").filter
          (fun s => !(decide (s.source = "myhostname")))) false false false "" =
      scanSources confLinux (some "myhostname") "somehostname"
        (fallbackOrderDef confLinux none) (nssSources nssMyhostname "hosts")
        false false false "" :=
  ⟨(c6_myhostname confLinux none (some "myhostname") nssMyhostname "myHostname").1
      (by decide) rfl (by decide) (by decide),
   (c6_myhostname confLinux none (some "myhostname") nssMyhostname "myHostname").2
      "somehostname" (fallbackOrderDef confLinux none) (nssSources nssMyhostname "hosts")
      false false false "" (by decide)⟩

/-- C7: a hostname whose canonical form (one trailing dot stripped) ends in
".local" case-insensitively yields the fallback whenever evaluation reaches
the canonicalization step. -/
theorem c7_dot_local (c : conf) (r : Option Resolver) (gh : Option String) (nss : nssConf)
    (hostname : String) (hreach : reachesNSSbase c hostname)
    (hlocal : stringsHasSuffixFold (canonicalHostname hostname) ".local" = true) :
    hostLookupOrderDef c r gh nss hostname = fallbackOrderDef c r := by
  rw [hostLookupOrder_reach c r gh nss hostname hreach]
  unfold nssPhase
  rw [if_pos hlocal]

/-- C7 witness: ".LOCAL." with a trailing dot on a plain linux
configuration. -/
theorem c7_dot_local_witness :
    hostLookupOrderDef confLinux none (some "myhostname") nssFilesDns "foo.LOCAL." =
      fallbackOrderDef confLinux none :=
  c7_dot_local confLinux none (some "myhostname") nssFilesDns "foo.LOCAL."
    (by decide) (by decide)

/-- C8: the engine is total — the result is always one of the five
enumeration values — and each condition the engine cannot confidently
classify degrades to the step-1 fallback: an unrecognized resolv directive
always, and, for calls that reach the NSS step, an NSS error other than
absence, as well as any scanned source that punts (unknown source name,
non-standard files/dns criteria, triggering or failing myhostname lookup). -/
theorem c8_conservative : ∀ (c : conf) (r : Option Resolver) (gh : Option String)
    (nss : nssConf) (hostname : String),
    (hostLookupOrderDef c r gh nss hostname = .hostLookupCgo ∨
     hostLookupOrderDef c r gh nss hostname = .hostLookupFilesDNS ∨
     hostLookupOrderDef c r gh nss hostname = .hostLookupDNSFiles ∨
     hostLookupOrderDef c r gh nss hostname = .hostLookupFiles ∨
     hostLookupOrderDef c r gh nss hostname = .hostLookupDNS) ∧
    (c.resolv.unknownOpt = true →
      hostLookupOrderDef c r gh nss hostname = fallbackOrderDef c r) ∧
    (reachesNSSbase c hostname → ¬ nss.err = none → ¬ nss.err = some fsError.notExist →
      hostLookupOrderDef c r gh nss hostname = fallbackOrderDef c r) ∧
    (reachesNSSbase c hostname → nss.err = none →
      (∃ s ∈ nssSources nss "hosts", srcPunts gh (canonicalHostname hostname) s = true) →
      hostLookupOrderDef c r gh nss hostname = fallbackOrderDef c r) := by
  intro c r gh nss hostname
  refine ⟨?_, ?_, ?_, ?_⟩
  · rcases hv : hostLookupOrderDef c r gh nss hostname <;> simp
  · intro hunk
    unfold hostLookupOrderDef
    by_cases h1 : c.goos = "windows" ∨ c.goos = "plan9"
    · rw [if_pos h1]
    · rw [if_neg h1, if_pos (Or.inr (Or.inl hunk))]
  · intro hreach hne1 hne2
    rw [hostLookupOrder_reach c r gh nss hostname hreach]
    unfold nssPhase
    by_cases hlocal : stringsHasSuffixFold (canonicalHostname hostname) ".local" = true
    · rw [if_pos hlocal]
    · rw [if_neg hlocal, if_neg (by simp [hne1, hne2]), if_pos hne1]
  · intro hreach herr hpunt
    obtain ⟨s, hs, hp⟩ := hpunt
    rw [hostLookupOrder_reach c r gh nss hostname hreach]
    unfold nssPhase
    by_cases hlocal : stringsHasSuffixFold (canonicalHostname hostname) ".local" = true
    · rw [if_pos hlocal]
    · rw [if_neg hlocal,
        if_neg (by
          simp [herr]
          intro hnil
          rw [hnil] at hs
          simp at hs),
        if_neg (by simp [herr])]
      exact scanSources_punt c gh (canonicalHostname hostname) (fallbackOrderDef c r)
        (nssSources nss "hosts") false false false "" ⟨s, hs, hp⟩

/-- C8 witness: the enumeration disjunct at a plain input, the unrecognized
resolv directive punt, the NSS parse-failure punt, and the unknown source
name punt, each at a concrete input. -/
theorem c8_conservative_witness :
    (hostLookupOrderDef confLinux none (some "myhostname") nssFilesDns "x.com" =
        .hostLookupCgo ∨
     hostLookupOrderDef confLinux none (some "myhostname") nssFilesDns "x.com" =
        .hostLookupFilesDNS ∨
     hostLookupOrderDef confLinux none (some "myhostname") nssFilesDns "x.com" =
        .hostLookupDNSFiles ∨
     hostLookupOrderDef confLinux none (some "myhostname") nssFilesDns "x.com" =
        .hostLookupFiles ∨
     hostLookupOrderDef confLinux none (some "myhostname") nssFilesDns "x.com" =
        .hostLookupDNS) ∧
    (hostLookupOrderDef
        { confLinux with resolv := { lookup := [], unknownOpt := true, err := none } } none
        (some "myhostname") nssFilesDns "x.com" =
      fallbackOrderDef
        { confLinux with resolv := { lookup := [], unknownOpt := true, err := none } } none) ∧
    (hostLookupOrderDef confLinux none (some "myhostname")
        { sources := [], err := some fsError.other } "x.com" =
      fallbackOrderDef confLinux none) ∧
    (hostLookupOrderDef confLinux none (some "myhostname")
        { sources := [("hosts", [⟨"dns", true⟩, ⟨"files", true⟩, ⟨"something_custom", true⟩])],
          err := none } "x.com" =
      fallbackOrderDef confLinux none) :=
  ⟨(c8_conservative confLinux none (some "myhostname") nssFilesDns "x.com").1,
   (c8_conservative _ none (some "myhostname") nssFilesDns "x.com").2.1 rfl,
   (c8_conservative confLinux none (some "myhostname")
      { sources := [], err := some fsError.other } "x.com").2.2.1
     (by decide) (by decide) (by decide),
   (c8_conservative confLinux none (some "myhostname")
      { sources := [("hosts", [⟨"dns", true⟩, ⟨"files", true⟩, ⟨"something_custom", true⟩])],
        err := none } "x.com").2.2.2 (by decide) rfl (by decide)⟩

/-- C9: with "hosts" sources files, dns, myhostname (standard criteria) and
a successful, non-empty machine-hostname lookup, the empty hostname does not
trigger the myhostname fallback and classifies as files+dns. -/
theorem c9_empty_hostname (c : conf) (r : Option Resolver) (nss : nssConf) (hn : String)
    (hreach : reachesNSSbase c "") (herr : nss.err = none)
    (hsrcs : nssSources nss "hosts" =
      [⟨"files", true⟩, ⟨"dns", true⟩, ⟨"myhostname", true⟩])
    (hhn : ¬ hn = "") :
    hostLookupOrderDef c r (some hn) nss "" = .hostLookupFilesDNS := by
  have hmp : myhostnamePunts (some hn) "" = false := by
    unfold myhostnamePunts
    simp only []
    rw [stringsEqualFold_empty_left hn hhn]
    decide
  rw [hostLookupOrder_reach c r (some hn) nss "" hreach]
  have hc : canonicalHostname "" = "" := by decide
  rw [hc]
  unfold nssPhase
  rw [if_neg (by decide), if_neg (by simp [herr, hsrcs]), if_neg (by simp [herr]), hsrcs,
    scanSources_nopunt c (some hn) "" (fallbackOrderDef c r) _ false false false ""
      (by
        intro s hs
        fin_cases hs
        · simp [srcPunts]
        · simp [srcPunts]
        · simp only [srcPunts, if_pos rfl]
          exact hmp)]
  have hmd : anyMdnsSrc
      [(⟨"files", true⟩ : nssSource), ⟨"dns", true⟩, ⟨"myhostname", true⟩] = false := by
    decide
  have hfi : hasFilesSrc
      [(⟨"files", true⟩ : nssSource), ⟨"dns", true⟩, ⟨"myhostname", true⟩] = true := by
    decide
  have hdn : hasDnsSrc
      [(⟨"files", true⟩ : nssSource), ⟨"dns", true⟩, ⟨"myhostname", true⟩] = true := by
    decide
  have hfd : firstFDSrc
      [(⟨"files", true⟩ : nssSource), ⟨"dns", true⟩, ⟨"myhostname", true⟩] = "files" := by
    decide
  rw [hmd, hfi, hdn, hfd]
  simp [claimClassify]

/-- C9 witness: the concrete configuration of the package's own test row. -/
theorem c9_empty_hostname_witness :
    hostLookupOrderDef confLinux none (some "myhostname") nssMyhostname "" =
      .hostLookupFilesDNS :=
  c9_empty_hostname confLinux none nssMyhostname "myhostname"
    (by decide) rfl (by decide) (by decide)

/-- C10: `Join` returns nil exactly when every argument is nil; otherwise it
returns a non-nil error whose `Unwrap` is exactly the non-nil arguments in
order and whose `Error` string is the newline-separated concatenation of
their `Error` strings. -/
theorem c10_join : ∀ errs : List (Option GoError),
    (Join errs = none ↔ ∀ e ∈ errs, e = none) ∧
    (∀ j, Join errs = some j →
      GoError.Unwrap j = errs.filterMap id ∧
      GoError.Error j =
        String.intercalate "\n" ((errs.filterMap id).map GoError.Error)) := by
  intro errs
  constructor
  · unfold Join
    by_cases h0 : (errs.filter (fun e => e.isSome)).length = 0
    · rw [if_pos h0]
      simp only [true_iff]
      rw [List.length_eq_zero, List.filter_eq_nil_iff] at h0
      exact fun e he => Option.not_isSome_iff_eq_none.mp (h0 e he)
    · rw [if_neg h0]
      constructor
      · intro h; exact absurd h (by simp)
      · intro hall
        exfalso
        apply h0
        rw [List.length_eq_zero, List.filter_eq_nil_iff]
        intro e he
        rw [hall e he]
        simp
  · intro j hj
    unfold Join at hj
    by_cases h0 : (errs.filter (fun e => e.isSome)).length = 0
    · rw [if_pos h0] at hj; exact absurd hj (by simp)
    · rw [if_neg h0] at hj
      have hj2 : GoError.joinError (errs.filterMap id) = j := Option.some.inj hj
      subst hj2
      exact ⟨rfl, by rw [GoError.Error]; exact joinErrorMsg_eq_intercalate _⟩

/-- C10 witness: two non-nil errors around a nil one. -/
theorem c10_join_witness :
    GoError.Unwrap (GoError.joinError [GoError.base "a", GoError.base "b"]) =
      ([some (GoError.base "a"), none, some (GoError.base "b")].filterMap id) ∧
    GoError.Error (GoError.joinError [GoError.base "a", GoError.base "b"]) =
      String.intercalate "\n"
        (([some (GoError.base "a"), none, some (GoError.base "b")].filterMap id).map
          GoError.Error) :=
  (c10_join [some (GoError.base "a"), none, some (GoError.base "b")]).2
    (GoError.joinError [GoError.base "a", GoError.base "b"]) rfl
